import Mathlib

/-!
Verification development for the Team Brain repository.

The repository consists of a Next.js frontend (the REST client in
`frontend/src/lib/api.ts` and the components, in particular
`CalendarView.tsx`) and a backend availability resolver that the spec
describes in detail.  The client code is embedded directly from the
TypeScript source; the resolver (backend code not present in the corpus)
is modelled from the spec, section 4.1.

Time is measured in minutes; calendar days are day indices (days since
the Unix epoch, which was a Thursday).
-/

namespace TeamBrain

/-! ## Client embedding: `frontend/src/lib/api.ts` -/

/-- JSON values appearing in the request bodies built by the client
(string and number fields only are needed). -/
inductive JsonValue where
  | str (s : String)
  | num (n : Int)
deriving DecidableEq

/-- Slot object of the availability response as typed in `findAvailability`:
`Array<{ start: string; end: string; display: string }>`.  The TypeScript
field `end` is a Lean keyword and is embedded as `stop`. -/
structure SlotDTO where
  start : String
  stop : String
  display : String
deriving DecidableEq, Inhabited

/-- Response payload of `findAvailability`: `{ slots, message }`. -/
structure AvailabilityResult where
  slots : List SlotDTO
  message : String
deriving DecidableEq, Inhabited

/-- Browser context read by `authHeaders`: whether `window` is defined and
the contents of `localStorage` (`getItem` returns `null` or a string,
embedded as `Option String`). -/
structure BrowserCtx where
  hasWindow : Bool
  storage : String → Option String

/-- JavaScript truthiness test used by `if (!key)` on the result of
`localStorage.getItem`: `null` and the empty string are falsy. -/
def isFalsyKey : Option String → Bool
  | none => true
  | some s => s == ""

/-- Embedding of `authHeaders` (api.ts lines 88-93): returns
`{ Authorization: Bearer <key> }` when `window` exists and a truthy value
is stored under `cortex_api_key`, else the empty header map. -/
def authHeaders (ctx : BrowserCtx) : List (String × String) :=
  if ctx.hasWindow = false then []
  else
    match ctx.storage "cortex_api_key" with
    | none => []
    | some key => if key == "" then [] else [("Authorization", "Bearer " ++ key)]

/-- HTTP request as assembled by the client helpers: method, url, headers
and a JSON object body given as an ordered list of key/value pairs. -/
structure HttpRequest where
  method : String
  url : String
  headers : List (String × String)
  body : List (String × JsonValue)

/-- Embedding of the request side of `findAvailability` (api.ts lines
171-188): POST to `/teams/{teamId}/availability/find` with JSON body
`{start_date, end_date, duration_minutes}`.  The TypeScript default
parameter `durationMinutes: number = 30` is embedded as an `Option Int`
argument: a call that omits the argument passes `none`. -/
def findAvailabilityRequest (ctx : BrowserCtx) (apiBase teamId startDate endDate : String)
    (durationMinutes : Option Int) : HttpRequest :=
  { method := "POST"
    url := apiBase ++ "/teams/" ++ teamId ++ "/availability/find"
    headers := ("Content-Type", "application/json") :: authHeaders ctx
    body := [("start_date", JsonValue.str startDate),
             ("end_date", JsonValue.str endDate),
             ("duration_minutes", JsonValue.num (durationMinutes.getD 30))] }

/-- HTTP response to `findAvailability` as the client sees it: the `ok`
flag of `fetch` and the JSON payload that `res.json()` would parse. -/
structure AvailabilityHttpResponse where
  ok : Bool
  payload : AvailabilityResult

/-- Embedding of the response side of `findAvailability`: a non-ok
response throws `Error("Failed to find availability")`, an ok response
resolves to the parsed `{slots, message}` object. -/
def findAvailabilityResult (res : AvailabilityHttpResponse) : Except String AvailabilityResult :=
  if res.ok = false then Except.error "Failed to find availability"
  else Except.ok res.payload

/-- Embedding of the request side of `bookMeeting` (api.ts lines 190-207):
POST to `/teams/{teamId}/book` with JSON body
`{title, start_time, duration_minutes}`; the duration parameter again
defaults to 30. -/
def bookMeetingRequest (ctx : BrowserCtx) (apiBase teamId title startTime : String)
    (durationMinutes : Option Int) : HttpRequest :=
  { method := "POST"
    url := apiBase ++ "/teams/" ++ teamId ++ "/book"
    headers := ("Content-Type", "application/json") :: authHeaders ctx
    body := [("title", JsonValue.str title),
             ("start_time", JsonValue.str startTime),
             ("duration_minutes", JsonValue.num (durationMinutes.getD 30))] }

/-! ## Client embedding: `frontend/src/components/CalendarView.tsx` -/

/-- Weekday of a day index, as JavaScript `Date.getDay` reports it
(0 = Sunday .. 6 = Saturday); day 0, the Unix epoch, was a Thursday.
Named after the local variable `day` of `getWeekRange`. -/
def jsDay (today : Int) : Int := (today + 4) % 7

/-- Day index of the Monday computed by `getWeekRange` (CalendarView.tsx
lines 7-19): `now.getDate() - day + (day === 0 ? -6 : 1)`, i.e. step back
to the Monday of the current week, a Sunday counting as the end of the
preceding week. -/
def mondayOf (today : Int) : Int :=
  today - jsDay today + (if jsDay today == 0 then -6 else 1)

/-- Decimal digit character of `n % 10`. -/
def digit (n : Int) : Char := Nat.digitChar ((n % 10).toNat)

/-- Two-digit zero-padded decimal rendering, as used by `toISOString` for
month and day fields. -/
def pad2 (n : Int) : String := String.mk [digit (n / 10), digit n]

/-- Four-digit zero-padded decimal rendering, as used by `toISOString` for
the year field. -/
def pad4 (n : Int) : String := String.mk [digit (n / 1000), digit (n / 100), digit (n / 10), digit n]

/-- Civil date (year, month, day-of-month) of a day index, the standard
days-to-civil conversion of the proleptic Gregorian calendar that
JavaScript `Date` arithmetic follows. -/
def civilFromDays (z : Int) : Int × Int × Int :=
  let z' := z + 719468
  let era := z' / 146097
  let doe := z' - era * 146097
  let yoe := (doe - doe / 1460 + doe / 36524 - doe / 146096) / 365
  let y := yoe + era * 400
  let doy := doe - (365 * yoe + yoe / 4 - yoe / 100)
  let mp := (5 * doy + 2) / 153
  let dom := doy - (153 * mp + 2) / 5 + 1
  let m := mp + (if mp < 10 then 3 else -9)
  (y + (if m ≤ 2 then 1 else 0), m, dom)

/-- ISO date string of a day index: `toISOString().slice(0, 10)` of a
`Date` at midnight UTC of that day, `YYYY-MM-DD`. -/
def isoDate (d : Int) : String :=
  let c := civilFromDays d
  pad4 c.1 ++ "-" ++ pad2 c.2.1 ++ "-" ++ pad2 c.2.2

/-- Embedding of `getWeekRange` (CalendarView.tsx lines 7-19) on day
indices: the Monday of the current week and the day four days later,
each formatted `toISOString().slice(0, 10)`. -/
def getWeekRange (today : Int) : String × String :=
  (isoDate (mondayOf today), isoDate (mondayOf today + 4))

/-- JavaScript `Array.prototype.slice(begin, end)` for non-negative
in-order indices: the elements from `begin` (inclusive) to `end`
(exclusive), clamped to the array length. -/
def sliceJS (b e : Nat) (xs : List α) : List α := (xs.drop b).take (e - b)

/-- Slots the calendar view renders as booking buttons (CalendarView.tsx
line 95): `slots.slice(0, 8)`, in the order received. -/
def renderedSlots (slots : List SlotDTO) : List SlotDTO := sliceJS 0 8 slots

/-- View state `fetchSlots` (CalendarView.tsx lines 31-49) leaves behind,
as a function of the outcome of `findAvailability`: on success the
response slots and message are displayed, on a thrown error the slot list
is cleared and the error message displayed. -/
def fetchSlotsView (outcome : Except String AvailabilityResult) : List SlotDTO × String :=
  match outcome with
  | Except.ok r => (r.slots, r.message)
  | Except.error e => ([], e)

/-! ## Availability resolver, modelled from the spec (section 4.1)

The backend that serves `/teams/{id}/availability/find` is not part of
the corpus; the definitions below follow the spec text.  Times are
minutes since the epoch, so day `d` spans `[d * 1440, (d + 1) * 1440)`.
-/

/-- Modelled from the spec: **TimeInterval** `{start, end}`, half-open
`[start, end)` in minutes; the field `end` is a Lean keyword and is
embedded as `stop`. -/
structure TimeInterval where
  start : Nat
  stop : Nat
deriving DecidableEq, Inhabited

/-- Modelled from the spec: working hours of a day,
`{start_hour, end_hour}` (default 9 to 17). -/
structure WorkingHours where
  startHour : Nat
  endHour : Nat
deriving DecidableEq

/-- Modelled from the spec: **AvailabilityRequest**.  Dates are day
indices, `daysIncluded` is the set of admitted weekdays
(0 = Sunday .. 6 = Saturday, default Monday to Friday). -/
structure AvailabilityRequest where
  startDate : Nat
  endDate : Nat
  durationMinutes : Int
  workingHours : WorkingHours
  daysIncluded : List Nat
deriving DecidableEq

/-- Modelled from the spec: the error taxonomy entry the resolver reports
for malformed input. -/
inductive ResolverError where
  | InvalidRequest
deriving DecidableEq

/-- Modelled from the spec: **Slot** `{start, end, display}`, the output
unit of the resolver. -/
structure Slot where
  start : Nat
  stop : Nat
  display : String
deriving DecidableEq, Inhabited

/-- Modelled from the spec: the resolver result, the ordered slot list
together with the human-readable `message`. -/
structure AvailabilityOutcome where
  slots : List Slot
  message : String
deriving DecidableEq, Inhabited

/-- Weekday of a day index for the resolver (0 = Sunday .. 6 = Saturday),
matching `jsDay` on non-negative days. -/
def weekdayOf (d : Nat) : Nat := (d + 4) % 7

/-- Insertion step of the sort of busy intervals by start. -/
def insertByStart (x : TimeInterval) : List TimeInterval → List TimeInterval
  | [] => [x]
  | y :: ys => if x.start ≤ y.start then x :: y :: ys else y :: insertByStart x ys

/-- Modelled from the spec: sort busy intervals by start (step 3 of the
algorithm). -/
def sortByStart : List TimeInterval → List TimeInterval
  | [] => []
  | x :: xs => insertByStart x (sortByStart xs)

/-- Modelled from the spec, step 3: interval subtraction.  Walk the busy
intervals left to right, tracking the cursor of remaining free time in
`[cursor, stop)`; a busy interval overlapping the cursor truncates or
splits the free region. -/
def subtractBusy (cursor stop : Nat) : List TimeInterval → List TimeInterval
  | [] => if cursor < stop then [⟨cursor, stop⟩] else []
  | b :: rest =>
    if b.stop ≤ cursor then subtractBusy cursor stop rest
    else if stop ≤ b.start then (if cursor < stop then [⟨cursor, stop⟩] else [])
    else
      (if cursor < b.start then [⟨cursor, b.start⟩] else []) ++
        subtractBusy (max cursor b.stop) stop rest

/-- Modelled from the spec, step 4: pointwise intersection of two free
interval sets; a time is in the intersection when it is covered on both
sides, so each non-empty pairwise overlap is kept. -/
def interListIntersect (xs ys : List TimeInterval) : List TimeInterval :=
  xs.flatMap fun x =>
    ys.filterMap fun y =>
      let s := max x.start y.start
      let e := min x.stop y.stop
      if s < e then some ⟨s, e⟩ else none

/-- Fuel-driven greedy tiling loop: from `cursor`, emit `[cursor,
cursor + dur)` and advance by the full duration while the slot still ends
by `stop`.  The fuel bounds the number of iterations; `stop - cursor`
is always sufficient for a positive duration. -/
def tileFrom : Nat → Nat → Nat → Nat → List TimeInterval
  | 0, _, _, _ => []
  | fuel + 1, dur, cursor, stop =>
    if 0 < dur ∧ cursor + dur ≤ stop then
      TimeInterval.mk cursor (cursor + dur) :: tileFrom fuel dur (cursor + dur) stop
    else []

/-- Modelled from the spec, step 5: from an all-free window, emit every
slot of length `dur` starting at the window start, advancing by the full
duration (non-overlapping greedy tiling) while the slot end is at most
the window end. -/
def tileWindow (dur : Nat) (w : TimeInterval) : List TimeInterval :=
  tileFrom (w.stop - w.start) dur w.start w.stop

/-- Modelled from the spec, step 1: candidate days, every date in
`[startDate, endDate]` whose weekday is in `daysIncluded`. -/
def candidateDays (req : AvailabilityRequest) : List Nat :=
  ((List.range (req.endDate + 1 - req.startDate)).map (fun i => req.startDate + i)).filter
    (fun d => weekdayOf d ∈ req.daysIncluded)

/-- Working window of a candidate day, step 2:
`[day + start_hour, day + end_hour)` in minutes. -/
def dayWindow (req : AvailabilityRequest) (day : Nat) : TimeInterval :=
  ⟨day * 1440 + req.workingHours.startHour * 60, day * 1440 + req.workingHours.endHour * 60⟩

/-- Modelled from the spec, steps 3-4: free intervals of one member for
the working window, then the intersection across all members, starting
from the whole window (a member with no busy intervals constrains
nothing). -/
def commonFreeWindows (team : List (String × List TimeInterval)) (w : TimeInterval) :
    List TimeInterval :=
  team.foldl
    (fun acc m => interListIntersect acc (subtractBusy w.start w.stop (sortByStart m.2))) [w]

/-- Weekday names used by the display formatter. -/
def weekdayName (wd : Nat) : String :=
  List.getD ["Sun", "Mon", "Tue", "Wed", "Thu", "Fri", "Sat"] wd "Sun"

/-- Minutes-of-day rendered `HH:MM`. -/
def formatTime (t : Nat) : String :=
  pad2 (Int.ofNat (t / 60 % 24)) ++ ":" ++ pad2 (Int.ofNat (t % 60))

/-- Modelled from the spec, section 4.2 `format_slot`: deterministic,
locale-stable rendering of local weekday, date, and start-end time range
of a slot. -/
def formatSlot (iv : TimeInterval) : String :=
  weekdayName (weekdayOf (iv.start / 1440)) ++ " " ++ isoDate (Int.ofNat (iv.start / 1440)) ++
    " " ++ formatTime iv.start ++ "-" ++ formatTime iv.stop

/-- Modelled from the spec, step 6: message of a result with no slots. -/
def noCommonSlotMessage : String :=
  "No common free slots were found in the requested range."

/-- Modelled from the spec, section 4.1, steps 1-6: the slot assembly of
`find_common_slots`.  Per candidate day, subtract each member busy set
from the working window, intersect the free sets, greedily tile each
all-free window, and concatenate slots across days in chronological
order. -/
def daySlots (team : List (String × List TimeInterval)) (req : AvailabilityRequest) :
    List Slot :=
  (candidateDays req).flatMap fun day =>
    ((commonFreeWindows team (dayWindow req day)).flatMap
        (tileWindow req.durationMinutes.toNat)).map
      fun iv => Slot.mk iv.start iv.stop (formatSlot iv)

/-- Modelled from the spec, section 4.1:
`find_common_slots(team_busy, request)`.  Fails with `InvalidRequest` on
a non-positive duration or an inverted date range, otherwise returns the
concatenated `daySlots` with the result message; zero slots across the
whole range is a success with an explanatory message, not an error. -/
def find_common_slots (team : List (String × List TimeInterval)) (req : AvailabilityRequest) :
    Except ResolverError AvailabilityOutcome :=
  if req.durationMinutes ≤ 0 then Except.error ResolverError.InvalidRequest
  else if req.endDate < req.startDate then Except.error ResolverError.InvalidRequest
  else
    Except.ok
      { slots := daySlots team req
        message :=
          if (daySlots team req).isEmpty then noCommonSlotMessage
          else "Found " ++ toString (daySlots team req).length ++ " common slots." }

/-- Slot list of a resolver outcome, the empty list on the error branch. -/
def resultSlots (r : Except ResolverError AvailabilityOutcome) : List Slot :=
  match r with
  | Except.ok o => o.slots
  | Except.error _ => []

/-- Message of a resolver outcome, the empty string on the error branch. -/
def resultMessage (r : Except ResolverError AvailabilityOutcome) : String :=
  match r with
  | Except.ok o => o.message
  | Except.error _ => ""

/-- Example team of the spec, section 8: one member, busy 9:00-10:00 and
11:00-17:00 on day 4 (Monday 1970-01-05; 9:00 of day 4 is minute
4 * 1440 + 540 = 6300). -/
def exampleTeam : List (String × List TimeInterval) :=
  [("alice", [⟨6300, 6360⟩, ⟨6420, 6780⟩])]

/-- Example request of the spec, section 8: working hours 9-17, the
single day 4, duration 30 minutes, default weekdays Monday to Friday. -/
def exampleReq : AvailabilityRequest :=
  { startDate := 4
    endDate := 4
    durationMinutes := 30
    workingHours := ⟨9, 17⟩
    daysIncluded := [1, 2, 3, 4, 5] }

/-- Request with a fully busy member on the same day, used to exhibit the
empty-result success path: the member is busy for the whole working day. -/
def exampleBlockedTeam : List (String × List TimeInterval) :=
  [("alice", []), ("bob", [⟨6300, 6780⟩])]

/-- Browser context with no `window` (server side rendering). -/
def witnessCtx : BrowserCtx := ⟨false, fun _ => none⟩

/-- Browser context with a stored credential `"k"`. -/
def witnessCtxAuth : BrowserCtx := ⟨true, fun _ => some "k"⟩

/-- Request with a non-positive duration and an inverted date range. -/
def badReq : AvailabilityRequest := ⟨5, 4, 0, ⟨9, 17⟩, [1, 2, 3, 4, 5]⟩

/-- An ok HTTP response carrying an empty payload. -/
def okRes : AvailabilityHttpResponse := ⟨true, ⟨[], "m"⟩⟩

/-- A non-ok HTTP response. -/
def badRes : AvailabilityHttpResponse := ⟨false, ⟨[], ""⟩⟩

/-! ## Helper lemmas -/

/-- Closed form of the greedy tiling loop: with positive duration and
sufficient fuel it emits the slot starting at `cursor + i * dur` for
every `i < (stop - cursor) / dur`. -/
theorem tileFrom_eq_range (dur : Nat) (hd : 0 < dur) :
    ∀ (fuel cursor stop : Nat), stop - cursor ≤ fuel →
      tileFrom fuel dur cursor stop =
        (List.range ((stop - cursor) / dur)).map
          (fun i => TimeInterval.mk (cursor + i * dur) (cursor + i * dur + dur)) := by
  intro fuel
  induction fuel with
  | zero =>
    intro cursor stop hfuel
    have h0 : stop - cursor = 0 := by omega
    simp [tileFrom, h0, Nat.div_eq_of_lt hd]
  | succ n ih =>
    intro cursor stop hfuel
    by_cases hstep : cursor + dur ≤ stop
    · have hrec := ih (cursor + dur) stop (by omega)
      have hdiv : (stop - cursor) / dur = (stop - (cursor + dur)) / dur + 1 := by
        have h1 : dur ≤ stop - cursor := by omega
        have h2 : stop - (cursor + dur) = stop - cursor - dur := by omega
        rw [h2, Nat.div_eq_sub_div hd h1]
      rw [tileFrom, if_pos ⟨hd, hstep⟩, hrec, hdiv, List.range_succ_eq_map]
      simp only [List.map_cons, List.map_map]
      refine congrArg₂ List.cons (by simp) ?_
      refine List.map_congr_left ?_
      intro i _
      simp only [Function.comp_apply, Nat.succ_eq_add_one]
      refine congrArg₂ TimeInterval.mk (by ring) (by ring)
    · have h0 : (stop - cursor) / dur = 0 := Nat.div_eq_of_lt (by omega)
      rw [tileFrom, if_neg (by tauto), h0]
      simp

/-- Every interval emitted by the tiling loop starts no earlier than the
cursor, has length exactly the duration, and ends by `stop`. -/
theorem mem_tileFrom {dur : Nat} :
    ∀ {fuel cursor stop : Nat} {x : TimeInterval}, x ∈ tileFrom fuel dur cursor stop →
      cursor ≤ x.start ∧ x.stop = x.start + dur ∧ x.stop ≤ stop ∧ 0 < dur := by
  intro fuel
  induction fuel with
  | zero => intro cursor stop x hx; simp [tileFrom] at hx
  | succ n ih =>
    intro cursor stop x hx
    rw [tileFrom] at hx
    split at hx
    · rename_i hcond
      rcases List.mem_cons.mp hx with h | h
      · subst h; exact ⟨Nat.le_refl _, rfl, hcond.2, hcond.1⟩
      · have := ih h
        exact ⟨by omega, this.2.1, this.2.2.1, this.2.2.2⟩
    · simp at hx

/-- Every interval produced by the subtraction walk lies inside the free
region `[cursor, stop)` and is non-empty. -/
theorem mem_subtractBusy :
    ∀ {busy : List TimeInterval} {cursor stop : Nat} {x : TimeInterval},
      x ∈ subtractBusy cursor stop busy →
      cursor ≤ x.start ∧ x.start < x.stop ∧ x.stop ≤ stop := by
  intro busy
  induction busy with
  | nil =>
    intro cursor stop x hx
    rw [subtractBusy] at hx
    split at hx
    · rcases List.mem_singleton.mp hx with h
      subst h; simp_all
    · simp at hx
  | cons b rest ih =>
    intro cursor stop x hx
    rw [subtractBusy] at hx
    split at hx
    · exact ih hx
    · split at hx
      · split at hx
        · rcases List.mem_singleton.mp hx with h
          subst h; simp_all
        · simp at hx
      · rename_i hnotpast hnotafter
        rcases List.mem_append.mp hx with h | h
        · split at h
          · rcases List.mem_singleton.mp h with h
            subst h
            show cursor ≤ cursor ∧ cursor < b.start ∧ b.start ≤ stop
            refine ⟨Nat.le_refl _, by assumption, by omega⟩
          · simp at h
        · have := ih h
          exact ⟨by omega, this.2.1, this.2.2⟩

/-- Every interval in the intersection of two free sets is contained in
some interval of the left set. -/
theorem mem_interListIntersect {xs ys : List TimeInterval} {z : TimeInterval}
    (hz : z ∈ interListIntersect xs ys) :
    ∃ x ∈ xs, x.start ≤ z.start ∧ z.stop ≤ x.stop ∧ z.start < z.stop := by
  rcases List.mem_flatMap.mp hz with ⟨x, hx, hmem⟩
  rcases List.mem_filterMap.mp hmem with ⟨y, _, hy⟩
  simp only at hy
  split at hy
  · rename_i hlt
    cases hy
    exact ⟨x, hx, Nat.le_max_left _ _, Nat.min_le_left _ _, hlt⟩
  · cases hy

/-- The fold that intersects member free sets preserves containment in
the working window. -/
theorem mem_commonFree_fold (w : TimeInterval) :
    ∀ (team : List (String × List TimeInterval)) (acc : List TimeInterval),
      (∀ z ∈ acc, w.start ≤ z.start ∧ z.stop ≤ w.stop) →
      ∀ z ∈ team.foldl
          (fun acc m => interListIntersect acc (subtractBusy w.start w.stop (sortByStart m.2)))
          acc,
        w.start ≤ z.start ∧ z.stop ≤ w.stop := by
  intro team
  induction team with
  | nil => intro acc hacc z hz; exact hacc z hz
  | cons m rest ih =>
    intro acc hacc z hz
    refine ih _ ?_ z hz
    intro u hu
    rcases mem_interListIntersect hu with ⟨x, hx, h1, h2, _⟩
    have := hacc x hx
    exact ⟨by omega, by omega⟩

/-- Every common free window of a working window lies inside it. -/
theorem mem_commonFreeWindows {team : List (String × List TimeInterval)}
    {w z : TimeInterval} (hz : z ∈ commonFreeWindows team w) :
    w.start ≤ z.start ∧ z.stop ≤ w.stop := by
  refine mem_commonFree_fold w team [w] ?_ z hz
  intro u hu
  rcases List.mem_singleton.mp hu with h
  subst h; exact ⟨Nat.le_refl _, Nat.le_refl _⟩

/-- Length of the two-digit rendering. -/
theorem pad2_length (n : Int) : (pad2 n).length = 2 := by
  simp [pad2, String.length]

/-- Length of the four-digit rendering. -/
theorem pad4_length (n : Int) : (pad4 n).length = 4 := by
  simp [pad4, String.length]

/-- The ISO date rendering is always ten characters. -/
theorem isoDate_length (d : Int) : (isoDate d).length = 10 := by
  simp [isoDate, String.length_append, pad2_length, pad4_length]
  rfl

/-! ## Claim theorems -/

/-- C1: the availability operation POSTs a JSON body with exactly the
keys `start_date`, `end_date`, `duration_minutes` to
`/teams/{teamId}/availability/find`, and an ok response resolves to the
parsed `{slots, message}` object. -/
theorem findAvailability_contract (ctx : BrowserCtx)
    (base teamId startDate endDate : String) (durationMinutes : Option Int)
    (res : AvailabilityHttpResponse) (hok : res.ok = true) :
    (findAvailabilityRequest ctx base teamId startDate endDate durationMinutes).method = "POST" ∧
    (findAvailabilityRequest ctx base teamId startDate endDate durationMinutes).url =
      base ++ "/teams/" ++ teamId ++ "/availability/find" ∧
    (findAvailabilityRequest ctx base teamId startDate endDate durationMinutes).body =
      [("start_date", JsonValue.str startDate),
       ("end_date", JsonValue.str endDate),
       ("duration_minutes", JsonValue.num (durationMinutes.getD 30))] ∧
    findAvailabilityResult res = Except.ok res.payload := by
  refine ⟨rfl, rfl, rfl, ?_⟩
  simp [findAvailabilityResult, hok]

/-- C1 witness: the contract at a concrete call and a concrete ok
response. -/
theorem findAvailability_contract_witness :
    (findAvailabilityRequest witnessCtx "http://localhost:8000" "t1" "2026-10-12" "2026-10-16"
        (some 30)).method = "POST" ∧
    (findAvailabilityRequest witnessCtx "http://localhost:8000" "t1" "2026-10-12" "2026-10-16"
        (some 30)).url = "http://localhost:8000" ++ "/teams/" ++ "t1" ++ "/availability/find" ∧
    (findAvailabilityRequest witnessCtx "http://localhost:8000" "t1" "2026-10-12" "2026-10-16"
        (some 30)).body =
      [("start_date", JsonValue.str "2026-10-12"),
       ("end_date", JsonValue.str "2026-10-16"),
       ("duration_minutes", JsonValue.num ((some (30 : Int)).getD 30))] ∧
    findAvailabilityResult okRes = Except.ok okRes.payload :=
  findAvailability_contract witnessCtx "http://localhost:8000" "t1" "2026-10-12" "2026-10-16"
    (some 30) okRes rfl

/-- C2: a non-positive duration or an inverted date range makes the
resolver fail with `InvalidRequest` and no partial result, while the
client performs no such validation: it forwards the given dates and
duration verbatim and turns any non-ok response into a generic error. -/
theorem invalid_request_rejected (team : List (String × List TimeInterval))
    (req : AvailabilityRequest) (ctx : BrowserCtx) (base teamId startDate endDate : String)
    (durationMinutes : Option Int) (res : AvailabilityHttpResponse)
    (hbad : req.durationMinutes ≤ 0 ∨ req.endDate < req.startDate)
    (hres : res.ok = false) :
    find_common_slots team req = Except.error ResolverError.InvalidRequest ∧
    (findAvailabilityRequest ctx base teamId startDate endDate durationMinutes).body =
      [("start_date", JsonValue.str startDate),
       ("end_date", JsonValue.str endDate),
       ("duration_minutes", JsonValue.num (durationMinutes.getD 30))] ∧
    findAvailabilityResult res = Except.error "Failed to find availability" := by
  refine ⟨?_, rfl, ?_⟩
  · by_cases h1 : req.durationMinutes ≤ 0
    · simp [find_common_slots, h1]
    · have h2 : req.endDate < req.startDate := by tauto
      simp [find_common_slots, h1, h2]
  · simp [findAvailabilityResult, hres]

/-- C2 witness: the rejection at a request with duration 0 and end date
before start date, and a concrete non-ok response. -/
theorem invalid_request_rejected_witness :
    find_common_slots [] badReq = Except.error ResolverError.InvalidRequest ∧
    (findAvailabilityRequest witnessCtx "b" "t" "2026-10-16" "2026-10-12" (some 0)).body =
      [("start_date", JsonValue.str "2026-10-16"),
       ("end_date", JsonValue.str "2026-10-12"),
       ("duration_minutes", JsonValue.num ((some (0 : Int)).getD 30))] ∧
    findAvailabilityResult badRes = Except.error "Failed to find availability" :=
  invalid_request_rejected [] badReq witnessCtx "b" "t" "2026-10-16" "2026-10-12" (some 0)
    badRes (by left; decide) rfl

/-- C6: the resolver is deterministic and pure; two invocations on
identical inputs produce identical outputs (the embedding is a function
of the busy sets and the request alone). -/
theorem resolver_deterministic (team1 team2 : List (String × List TimeInterval))
    (req1 req2 : AvailabilityRequest) (hteam : team1 = team2) (hreq : req1 = req2) :
    find_common_slots team1 req1 = find_common_slots team2 req2 := by
  subst hteam
  subst hreq
  rfl

/-- C6 witness: determinism at the concrete example inputs. -/
theorem resolver_deterministic_witness :
    find_common_slots exampleTeam exampleReq = find_common_slots exampleTeam exampleReq :=
  resolver_deterministic exampleTeam exampleTeam exampleReq exampleReq rfl rfl

/-- C8: when the duration argument is omitted, both client operations
default it to 30: the JSON bodies of `findAvailability` and
`bookMeeting` carry `duration_minutes = 30`. -/
theorem default_duration_thirty (ctx : BrowserCtx)
    (base teamId startDate endDate title startTime : String) :
    (findAvailabilityRequest ctx base teamId startDate endDate none).body =
      [("start_date", JsonValue.str startDate),
       ("end_date", JsonValue.str endDate),
       ("duration_minutes", JsonValue.num 30)] ∧
    (bookMeetingRequest ctx base teamId title startTime none).body =
      [("title", JsonValue.str title),
       ("start_time", JsonValue.str startTime),
       ("duration_minutes", JsonValue.num 30)] :=
  ⟨rfl, rfl⟩

/-- C9: `authHeaders` yields the bearer header exactly when a window
exists and a truthy (non-empty) credential is stored under
`cortex_api_key`; in every other case it yields no headers at all. -/
theorem authHeaders_iff_credential (ctx : BrowserCtx) (key : String) :
    (ctx.hasWindow = true → ctx.storage "cortex_api_key" = some key → key ≠ "" →
      authHeaders ctx = [("Authorization", "Bearer " ++ key)]) ∧
    ((ctx.hasWindow = false ∨ ctx.storage "cortex_api_key" = none ∨
        ctx.storage "cortex_api_key" = some "") →
      authHeaders ctx = []) := by
  constructor
  · intro hw hk hne
    simp [authHeaders, hw, hk, hne]
  · intro h
    rcases h with h | h | h
    · simp [authHeaders, h]
    · cases hw : ctx.hasWindow
      · simp [authHeaders, hw]
      · simp [authHeaders, hw, h]
    · cases hw : ctx.hasWindow
      · simp [authHeaders, hw]
      · simp [authHeaders, hw, h]

/-- C9 witness: the bearer header at a context holding the credential
`"k"`. -/
theorem authHeaders_iff_credential_witness :
    authHeaders witnessCtxAuth = [("Authorization", "Bearer " ++ "k")] :=
  (authHeaders_iff_credential witnessCtxAuth "k").1 rfl rfl (by decide)

/-- C10: the calendar view renders exactly the first eight slots of the
response, in order: index `i < 8` shows slot `i`, and no slot at index
8 or beyond is displayed. -/
theorem calendar_renders_first_eight (slots : List SlotDTO) (i j : Nat)
    (hi : i < 8) (hj : 8 ≤ j) :
    (renderedSlots slots).length = min 8 slots.length ∧
    (renderedSlots slots)[i]? = slots[i]? ∧
    (renderedSlots slots)[j]? = none := by
  have htake : renderedSlots slots = slots.take 8 := by
    simp [renderedSlots, sliceJS]
  refine ⟨?_, ?_, ?_⟩
  · rw [htake, List.length_take]
  · rw [htake, List.getElem?_take, if_pos hi]
  · rw [htake, List.getElem?_take, if_neg (by omega)]

/-- C3: greedy tiling emits, from each all-free window, exactly the
slots of full duration starting at the window start and advancing by the
duration while the slot end stays within the window; on the spec example
(working hours 9-17, day 4, one member busy 9:00-10:00 and 11:00-17:00,
duration 30) the output is exactly the two slots 10:00-10:30 and
10:30-11:00 (minutes 6360-6390 and 6390-6420). -/
theorem greedy_tiling (dur : Nat) (w : TimeInterval) (hd : 0 < dur) :
    tileWindow dur w =
      (List.range ((w.stop - w.start) / dur)).map
        (fun i => TimeInterval.mk (w.start + i * dur) (w.start + i * dur + dur)) ∧
    (find_common_slots exampleTeam exampleReq).toOption.map
        (fun o => o.slots.map fun s => (s.start, s.stop)) =
      some [(6360, 6390), (6390, 6420)] := by
  constructor
  · rw [tileWindow]
    exact tileFrom_eq_range dur hd _ _ _ (Nat.le_refl _)
  · decide

/-- C3 witness: the tiling of the free window 10:00-11:00 of the example
day by 30-minute slots. -/
theorem greedy_tiling_witness :
    tileWindow 30 ⟨6360, 6420⟩ =
      (List.range 2).map
        (fun i => TimeInterval.mk (6360 + i * 30) (6360 + i * 30 + 30)) ∧
    (find_common_slots exampleTeam exampleReq).toOption.map
        (fun o => o.slots.map fun s => (s.start, s.stop)) =
      some [(6360, 6390), (6390, 6420)] :=
  greedy_tiling 30 ⟨6360, 6420⟩ (by decide)

/-- C4: every emitted slot lies inside the working window of a single
candidate day, with its start and end on that same date; no slot crosses
a day boundary (working hours being hours of one day,
`end_hour ≤ 24`). -/
theorem slots_stay_within_day (team : List (String × List TimeInterval))
    (req : AvailabilityRequest) (s : Slot) (h24 : req.workingHours.endHour ≤ 24)
    (hs : s ∈ resultSlots (find_common_slots team req)) :
    ∃ day ∈ candidateDays req,
      day * 1440 + req.workingHours.startHour * 60 ≤ s.start ∧
      s.start < s.stop ∧
      s.stop ≤ day * 1440 + req.workingHours.endHour * 60 ∧
      s.start / 1440 = day ∧ (s.stop - 1) / 1440 = day := by
  by_cases h1 : req.durationMinutes ≤ 0
  · simp [find_common_slots, h1, resultSlots] at hs
  by_cases h2 : req.endDate < req.startDate
  · simp [find_common_slots, h1, h2, resultSlots] at hs
  simp only [find_common_slots, if_neg h1, if_neg h2, resultSlots, daySlots] at hs
  rcases List.mem_flatMap.mp hs with ⟨day, hday, hsl⟩
  rcases List.mem_map.mp hsl with ⟨iv, hiv, hmk⟩
  rcases List.mem_flatMap.mp hiv with ⟨w, hw, htile⟩
  have hwin := mem_commonFreeWindows hw
  rw [tileWindow] at htile
  have ht := mem_tileFrom htile
  have hws : (dayWindow req day).start = day * 1440 + req.workingHours.startHour * 60 := rfl
  have hwe : (dayWindow req day).stop = day * 1440 + req.workingHours.endHour * 60 := rfl
  refine ⟨day, hday, ?_⟩
  subst hmk
  show day * 1440 + req.workingHours.startHour * 60 ≤ iv.start ∧
      iv.start < iv.stop ∧
      iv.stop ≤ day * 1440 + req.workingHours.endHour * 60 ∧
      iv.start / 1440 = day ∧ (iv.stop - 1) / 1440 = day
  rw [hws, hwe] at hwin
  omega

/-- C4 witness: the first slot of the spec example stays inside the
working window of day 4. -/
theorem slots_stay_within_day_witness :
    ∃ day ∈ candidateDays exampleReq,
      day * 1440 + 9 * 60 ≤ 6360 ∧ 6360 < 6390 ∧ 6390 ≤ day * 1440 + 17 * 60 ∧
      6360 / 1440 = day ∧ (6390 - 1) / 1440 = day :=
  slots_stay_within_day exampleTeam exampleReq
    (Slot.mk 6360 6390 (formatSlot ⟨6360, 6390⟩)) (by decide) (by decide)

/-- C5: a valid request never errors; zero slots across the range comes
back as a success carrying the explanatory non-empty message; and on the
client side an ok response has its message displayed alongside the slots
as a normal result, the error path being taken only for non-ok
responses. -/
theorem empty_result_is_success (team : List (String × List TimeInterval))
    (req : AvailabilityRequest) (r : AvailabilityResult)
    (res1 res2 : AvailabilityHttpResponse)
    (hd : 0 < req.durationMinutes) (hdates : req.startDate ≤ req.endDate)
    (h1 : res1.ok = true) (h2 : res2.ok = false) :
    (∃ out, find_common_slots team req = Except.ok out) ∧
    (resultSlots (find_common_slots team req) = [] →
      resultMessage (find_common_slots team req) = noCommonSlotMessage ∧
      noCommonSlotMessage ≠ "") ∧
    fetchSlotsView (Except.ok r) = (r.slots, r.message) ∧
    findAvailabilityResult res1 = Except.ok res1.payload ∧
    findAvailabilityResult res2 = Except.error "Failed to find availability" := by
  have h1' : ¬ req.durationMinutes ≤ 0 := not_le.mpr hd
  have h2' : ¬ req.endDate < req.startDate := not_lt.mpr hdates
  refine ⟨⟨{ slots := daySlots team req
             message :=
               if (daySlots team req).isEmpty then noCommonSlotMessage
               else "Found " ++ toString (daySlots team req).length ++ " common slots." }, ?_⟩,
      ?_, rfl, ?_, ?_⟩
  · rw [find_common_slots, if_neg h1', if_neg h2']
  · intro hempty
    refine ⟨?_, by decide⟩
    simp only [find_common_slots, if_neg h1', if_neg h2', resultSlots] at hempty
    simp only [find_common_slots, if_neg h1', if_neg h2', resultMessage, hempty]
    simp
  · simp [findAvailabilityResult, h1]
  · simp [findAvailabilityResult, h2]

/-- C5 witness: a fully blocked day yields the ok empty result with the
explanatory message, at concrete client responses. -/
theorem empty_result_is_success_witness :
    (∃ out, find_common_slots exampleBlockedTeam exampleReq = Except.ok out) ∧
    (resultSlots (find_common_slots exampleBlockedTeam exampleReq) = [] →
      resultMessage (find_common_slots exampleBlockedTeam exampleReq) = noCommonSlotMessage ∧
      noCommonSlotMessage ≠ "") ∧
    fetchSlotsView (Except.ok ⟨[], "m"⟩) = ((⟨[], "m"⟩ : AvailabilityResult).slots,
      (⟨[], "m"⟩ : AvailabilityResult).message) ∧
    findAvailabilityResult okRes = Except.ok okRes.payload ∧
    findAvailabilityResult badRes = Except.error "Failed to find availability" :=
  empty_result_is_success exampleBlockedTeam exampleReq ⟨[], "m"⟩ okRes badRes
    (by decide) (by decide) rfl rfl

/-- C7: the calendar requests the Monday-to-Friday range of the current
week: the start is the Monday of the week of `today` (a Sunday counting
as the end of the preceding week), the end is exactly four days later,
and both are ten-character ISO date strings. -/
theorem week_range_monday_to_friday (today sunday : Int) (hsun : jsDay sunday = 0) :
    getWeekRange today = (isoDate (mondayOf today), isoDate (mondayOf today + 4)) ∧
    jsDay (mondayOf today) = 1 ∧
    mondayOf today ≤ today ∧
    today ≤ mondayOf today + 6 ∧
    jsDay (mondayOf today + 4) = 5 ∧
    sunday = mondayOf sunday + 6 ∧
    (getWeekRange today).1.length = 10 ∧
    (getWeekRange today).2.length = 10 := by
  simp only [jsDay] at hsun
  refine ⟨rfl, ?_, ?_, ?_, ?_, ?_, isoDate_length _, isoDate_length _⟩ <;>
    simp only [mondayOf, jsDay, beq_iff_eq] <;> split <;> omega

/-- C7 witness: the week range around Saturday 2026-10-17 (day 20743)
and the Sunday day 3. -/
theorem week_range_monday_to_friday_witness :
    getWeekRange 20743 = (isoDate (mondayOf 20743), isoDate (mondayOf 20743 + 4)) ∧
    jsDay (mondayOf 20743) = 1 ∧
    mondayOf 20743 ≤ 20743 ∧
    20743 ≤ mondayOf 20743 + 6 ∧
    jsDay (mondayOf 20743 + 4) = 5 ∧
    (3 : Int) = mondayOf 3 + 6 ∧
    (getWeekRange 20743).1.length = 10 ∧
    (getWeekRange 20743).2.length = 10 :=
  week_range_monday_to_friday 20743 3 (by decide)

/-- C10 witness: a nine-slot response at indices 0 and 8. -/
theorem calendar_renders_first_eight_witness :
    (renderedSlots (List.replicate 9 (SlotDTO.mk "s" "e" "d"))).length =
      min 8 (List.replicate 9 (SlotDTO.mk "s" "e" "d")).length ∧
    (renderedSlots (List.replicate 9 (SlotDTO.mk "s" "e" "d")))[0]? =
      (List.replicate 9 (SlotDTO.mk "s" "e" "d"))[0]? ∧
    (renderedSlots (List.replicate 9 (SlotDTO.mk "s" "e" "d")))[8]? = none :=
  calendar_renders_first_eight (List.replicate 9 (SlotDTO.mk "s" "e" "d")) 0 8
    (by decide) (by decide)

end TeamBrain
